import Mathlib

/-!
# Verification of the SecureWhisper mesh overlay (src/network/mesh.py)

Shallow embedding of the `MeshNetwork` component: the `PeerState` registry,
message broadcast with deduplication, the peer-maintenance decay loop, the
buffered-message redelivery loop, the heartbeat loop, the port-negotiation
loop of `start()`, `stop()` / `cleanup()`, and the compression wrappers.

Network outcomes (whether a connection/send to a given peer succeeds) are
nondeterministic at the Python level; they are passed in as explicit boolean
oracles, so every embedded operation is a pure, executable function of the
state and the oracle.  Timestamps (`time.time()`) are modelled as naturals
passed in as `now`.
-/

namespace SecureWhisper

/-- `PeerState` dataclass of src/network/mesh.py (lines 13-17). -/
structure PeerState where
  last_seen : Nat
  failed_attempts : Nat := 0
  is_active : Bool := true
deriving Repr, DecidableEq

/-- One buffered-message dict appended by `broadcast_message`
(mesh.py lines 172-178). -/
structure BufferedMessage where
  peer : String
  message : List Nat
  attempts : Nat
  timestamp : Nat
deriving Repr, DecidableEq

/-- The mutable fields of a `MeshNetwork` instance that the lifecycle,
broadcast and maintenance code touches (mesh.py lines 20-32).
`http_runner = true` models `self._http_runner` being non-`None`. -/
structure MeshNetwork where
  base_port : Nat
  max_retry_ports : Nat
  port : Option Nat := none
  peers : List (String × PeerState) := []
  message_buffer : List BufferedMessage := []
  is_running : Bool := false
  known_messages : List Nat := []
  http_runner : Bool := false
deriving Repr, DecidableEq

/-! ## Peer maintenance (`_peer_maintenance`, mesh.py lines 201-219)

One cycle of the loop body.  Lines 206-210 drop stale peers; lines 212-217
decay `failed_attempts` for inactive peers and reactivate at zero. -/

/-- The per-peer body of the decay pass (mesh.py lines 213-217):
`if not state.is_active and state.failed_attempts > 0:
   state.failed_attempts = max(0, state.failed_attempts - 1)`
then `if state.failed_attempts == 0: state.is_active = True`. -/
def maintainPeer (p : PeerState) : PeerState :=
  let p1 := if p.is_active = false ∧ p.failed_attempts > 0 then
      { p with failed_attempts := p.failed_attempts - 1 }
    else p
  if p1.failed_attempts = 0 then { p1 with is_active := true } else p1

/-- One full cycle of `_peer_maintenance` (mesh.py lines 204-217): drop
peers with `now - last_seen ≥ peer_timeout`, then run the decay pass. -/
def peerMaintenanceStep (now peer_timeout : Nat)
    (peers : List (String × PeerState)) : List (String × PeerState) :=
  (peers.filter (fun p => now - p.2.last_seen < peer_timeout)).map
    (fun p => (p.1, maintainPeer p.2))

/-! ## Broadcast (`broadcast_message`, mesh.py lines 147-178) -/

/-- The per-peer body of the broadcast loop (mesh.py lines 157-169): inactive
peers are skipped; on send failure `failed_attempts` is incremented and the
peer is deactivated once the counter is ≥ 3.  `sendOk peer` tells whether the
connection/send to that peer succeeds. -/
def broadcastUpdatePeer (sendOk : String → Bool) (p : String × PeerState) :
    String × PeerState :=
  if p.2.is_active = false then p
  else if sendOk p.1 then p
  else
    let fa := p.2.failed_attempts + 1
    (p.1, { p.2 with failed_attempts := fa,
                     is_active := if fa ≥ 3 then false else p.2.is_active })

/-- The result of one `broadcast_message` call: the updated network state and
the list of peers a frame-send was attempted to (a connection opened). -/
structure BroadcastResult where
  net : MeshNetwork
  contacted : List String
deriving Repr, DecidableEq

/-- `broadcast_message(message)` (mesh.py lines 147-178).
`hash` models Python's `hash(message)` (line 149); `compress` models
`self._compress_message` (line 154); `sendOk` the per-peer network outcome;
`now` is `time.time()` at buffer-append time (line 177).
If the fingerprint is already in `known_messages` the call returns at once
with no peer contacted (lines 150-151); otherwise the fingerprint is
recorded, every active peer is attempted, failures increment that peer's
counter and enqueue a buffer entry with `attempts = 0`. -/
def broadcast_message (hash : String → Nat) (compress : String → List Nat)
    (sendOk : String → Bool) (net : MeshNetwork) (message : String)
    (now : Nat) : BroadcastResult :=
  let mh := hash message
  if mh ∈ net.known_messages then ⟨net, []⟩
  else
    let compressed := compress message
    let newPeers := net.peers.map (broadcastUpdatePeer sendOk)
    let contacted := (net.peers.filter (fun p => p.2.is_active)).map (·.1)
    let failed := net.peers.filter (fun p => p.2.is_active && !(sendOk p.1))
    let newBuf := net.message_buffer ++ failed.map
      (fun p => BufferedMessage.mk p.1 compressed 0 now)
    ⟨{ net with known_messages := mh :: net.known_messages,
                peers := newPeers, message_buffer := newBuf }, contacted⟩

/-! ## Heartbeat (`_heartbeat`, mesh.py lines 239-256) -/

/-- The per-peer body of the heartbeat loop (mesh.py lines 242-254): inactive
peers are skipped (line 243-244); on a successful PING `last_seen := now` and
`failed_attempts := 0` (lines 249-250); on failure the counter is incremented
and the peer deactivated at ≥ 3 (lines 252-254). -/
def heartbeatPeer (pingOk : String → Bool) (now : Nat)
    (p : String × PeerState) : String × PeerState :=
  if p.2.is_active = false then p
  else if pingOk p.1 then
    (p.1, { p.2 with last_seen := now, failed_attempts := 0 })
  else
    let fa := p.2.failed_attempts + 1
    (p.1, { p.2 with failed_attempts := fa,
                     is_active := if fa ≥ 3 then false else p.2.is_active })

/-- One iteration of the heartbeat loop over the registry. -/
def heartbeatStep (pingOk : String → Bool) (now : Nat)
    (peers : List (String × PeerState)) : List (String × PeerState) :=
  peers.map (heartbeatPeer pingOk now)

/-- The peers to which the heartbeat iteration opens a connection and sends a
PING frame: exactly those with `is_active` (mesh.py lines 243-248). -/
def heartbeatPinged (peers : List (String × PeerState)) : List String :=
  (peers.filter (fun p => p.2.is_active)).map (·.1)

/-! ## Buffered-message redelivery (`_handle_message_buffer`,
mesh.py lines 221-237) -/

/-- The per-message body of one buffer iteration (mesh.py lines 225-235):
a message with `attempts < 5` is retried — removed on success, otherwise its
counter is incremented; a message with `attempts ≥ 5` is never retried and is
removed once `now - timestamp > 3600`.  Returns the surviving entry (if any)
and whether a delivery attempt (connection + send) was made.
`deliverOk peer` tells whether `_send_to_peer(peer, …)` succeeds. -/
def bufferHandleMsg (deliverOk : String → Bool) (now : Nat)
    (msg : BufferedMessage) : Option BufferedMessage × Bool :=
  if msg.attempts < 5 then
    if deliverOk msg.peer then (none, true)
    else (some { msg with attempts := msg.attempts + 1 }, true)
  else if now - msg.timestamp > 3600 then (none, false)
  else (some msg, false)

/-- One full iteration of `_handle_message_buffer` over the buffer: the new
buffer and the list of entries a delivery attempt was made for. -/
def bufferStep (deliverOk : String → Bool) (now : Nat)
    (buf : List BufferedMessage) :
    List BufferedMessage × List BufferedMessage :=
  (buf.filterMap (fun msg => (bufferHandleMsg deliverOk now msg).1),
   buf.filter (fun msg => (bufferHandleMsg deliverOk now msg).2))

/-- Iterating the buffer loop over a schedule of rounds, each round being a
delivery oracle together with the clock at that round; collects every
delivery attempt ever made. -/
def bufferIters : List ((String → Bool) × Nat) → List BufferedMessage →
    List BufferedMessage × List BufferedMessage
  | [], buf => (buf, [])
  | r :: rs, buf =>
    let step := bufferStep r.1 r.2 buf
    let rest := bufferIters rs step.1
    (rest.1, step.2 ++ rest.2)

/-! ## Port negotiation (`start`, mesh.py lines 83-128)

The loop tries `base_port + offset + 1` for `offset ∈ [0, max_retry_ports)`;
a candidate is committed iff `dht.listen` succeeds and the post-bind
verification (`_verify_port_active`) confirms it, otherwise the raised or
synthesised exception is caught and the next candidate is tried.  `ok p`
abstracts "listen on p succeeded and the port verified active". -/

/-- The candidate ports scanned by `start` (mesh.py lines 91-92). -/
def candidatePorts (base n : Nat) : List Nat :=
  (List.range n).map (fun offset => base + offset + 1)

/-- The message of the error raised when every candidate fails
(mesh.py line 128); it names the scanned range. -/
def portExhaustionMessage (base n : Nat) : String :=
  "Could not find available port in range " ++ toString (base + 1) ++ "-" ++
    toString (base + n)

/-- The port-negotiation part of `start()` (mesh.py lines 91-128): commits
the first candidate that binds and verifies, or fails with the
range-naming error once all candidates are exhausted. -/
def startPortLoop (ok : Nat → Bool) (base n : Nat) : Except String Nat :=
  match (candidatePorts base n).find? ok with
  | some p => .ok p
  | none => .error (portExhaustionMessage base n)

/-! ## Shutdown (`stop`, mesh.py lines 130-145, and `MeshChat.cleanup`,
mesh_chat.py lines 91-113) -/

/-- `MeshNetwork.stop()` (mesh.py lines 130-145): clears the running flag,
then awaits `_http_runner.cleanup()` when a runner exists and `dht.stop()` —
neither call is wrapped in try/except, so a failure of either propagates to
the caller (modelled as `.error`).  `httpCleanupOk` / `dhtStopOk` are the
outcomes of those awaited calls. -/
def MeshNetwork.stop (httpCleanupOk dhtStopOk : Bool) (net : MeshNetwork) :
    Except String MeshNetwork :=
  let net1 := { net with is_running := false }
  if net1.http_runner ∧ httpCleanupOk = false then
    .error "http runner cleanup raised"
  else
    let net2 := { net1 with http_runner := false }
    if dhtStopOk = false then .error "dht stop raised"
    else .ok net2

/-- `MeshChat.cleanup()` (mesh_chat.py lines 91-113): gathers
`tor_manager.stop()` and `mesh_network.stop()` with
`return_exceptions=True`, so an exception from either stop is captured as a
value and never re-raised; cleanup always runs to completion and returns the
(best-effort) stopped network state. -/
def cleanup (_torStopOk httpCleanupOk dhtStopOk : Bool) (net : MeshNetwork) :
    MeshNetwork :=
  match net.stop httpCleanupOk dhtStopOk with
  | .ok n => n
  | .error _ => { net with is_running := false }

/-! ## Compression wrappers (`_compress_message` mesh.py lines 258-266,
`_decompress_message` lines 268-276)

The zstd compressor/decompressor and the str/bytes codecs are external
library primitives; they enter the embedding as an abstract `Codec`.
A partial operation returning `none` models the library call raising. -/

/-- The external primitives used by the two wrappers: zstd
compress/decompress over byte strings, UTF-8 `str.encode()`, strict
`bytes.decode()` (which can raise, hence `Option`), and
`bytes.decode(errors='replace')` (total). -/
structure Codec where
  zcompress : List Nat → Option (List Nat)
  zdecompress : List Nat → Option (List Nat)
  encode : String → List Nat
  decode : List Nat → Option String
  decodeReplace : List Nat → String

/-- `_compress_message` (mesh.py lines 258-266): zstd-compress the encoded
message; on compressor failure fall back to the raw encoded bytes. -/
def compress_message (c : Codec) (message : String) : List Nat :=
  match c.zcompress (c.encode message) with
  | some out => out
  | none => c.encode message

/-- `_decompress_message` (mesh.py lines 268-276): zstd-decompress then
strictly decode; if either step raises, fall back to
`data.decode(errors='replace')` on the raw input. -/
def decompress_message (c : Codec) (data : List Nat) : String :=
  match c.zdecompress data with
  | some b =>
    match c.decode b with
    | some s => s
    | none => c.decodeReplace data
  | none => c.decodeReplace data

/-- A concrete instantiation of the external codec used to witness the
round-trip theorems: "compression" prefixes a magic byte, encoding maps
characters to code points. -/
def unitCodec : Codec where
  zcompress := fun b => some (42 :: b)
  zdecompress := fun b => match b with
    | 42 :: t => some t
    | _ => none
  encode := fun s => s.data.map Char.toNat
  decode := fun b => some ⟨b.map Char.ofNat⟩
  decodeReplace := fun b => ⟨b.map Char.ofNat⟩

/-! ## Helper lemmas about the maintenance decay step -/

/-- On an inactive peer with a positive counter, one maintenance pass
decrements the counter and reactivates exactly when it reaches zero. -/
lemma maintainPeer_inactive_pos (ls n : Nat) (hn : 1 ≤ n) :
    maintainPeer ⟨ls, n, false⟩ =
      if n - 1 = 0 then ⟨ls, 0, true⟩ else ⟨ls, n - 1, false⟩ := by
  have hpos : (0 : Nat) < n := hn
  by_cases h0 : n - 1 = 0
  · simp [maintainPeer, hpos, h0]
  · simp [maintainPeer, hpos, h0]

/-- An active peer with a zero counter is a fixed point of maintenance. -/
lemma maintainPeer_zero_active (ls : Nat) :
    maintainPeer ⟨ls, 0, true⟩ = ⟨ls, 0, true⟩ := by
  simp [maintainPeer]

/-- Iterating maintenance keeps an active zero-counter peer unchanged. -/
lemma maintainPeer_iterate_zero_active (ls j : Nat) :
    (maintainPeer^[j]) ⟨ls, 0, true⟩ = ⟨ls, 0, true⟩ := by
  induction j with
  | zero => rfl
  | succ j ih => rw [Function.iterate_succ_apply, maintainPeer_zero_active, ih]

/-- After `k < n` maintenance cycles an inactive peer that started with
counter `n` has counter `n - k` and is still inactive. -/
lemma maintainPeer_iterate_lt (ls n k : Nat) (h : k < n) :
    (maintainPeer^[k]) ⟨ls, n, false⟩ = ⟨ls, n - k, false⟩ := by
  induction k with
  | zero => simp
  | succ k ih =>
    rw [Function.iterate_succ_apply', ih (by omega)]
    rw [maintainPeer_inactive_pos ls (n - k) (by omega)]
    have hne : ¬ n - k - 1 = 0 := by omega
    rw [if_neg hne]
    have : n - k - 1 = n - (k + 1) := by omega
    rw [this]

/-- After exactly `n` maintenance cycles an inactive peer that started with
counter `n ≥ 1` is active with counter zero. -/
lemma maintainPeer_iterate_exact (ls n : Nat) (hn : 1 ≤ n) :
    (maintainPeer^[n]) ⟨ls, n, false⟩ = ⟨ls, 0, true⟩ := by
  cases n with
  | zero => omega
  | succ m =>
    rw [Function.iterate_succ_apply', maintainPeer_iterate_lt ls (m + 1) m (by omega)]
    have : m + 1 - m = 1 := by omega
    rw [this, maintainPeer_inactive_pos ls 1 (by omega)]
    simp

/-! ## C1 — the activity-derivation invariant -/

/-- The direction of the spec invariant that the code actually preserves:
an active peer always has `failed_attempts < 3`.  The converse fails during
decay (hysteresis). -/
def peerInv (p : PeerState) : Prop :=
  p.is_active = true → p.failed_attempts < 3

instance (p : PeerState) : Decidable (peerInv p) := by
  unfold peerInv; infer_instance

/-- C1 counterexample: a fresh peer driven through three broadcast send
failures (reaching `failed_attempts = 3`, inactive — the invariant still
holds there) and then ONE maintenance-decay cycle ends with
`failed_attempts = 2` but `is_active = false`, so the claimed equality
`is_active == (failed_attempts < 3)` is violated by `_peer_maintenance`:
the code reactivates only when the counter reaches 0, not as soon as it
drops below 3. -/
theorem C1_invariant_counterexample :
    let failAll : String → Bool := fun _ => false
    let p3 := broadcastUpdatePeer failAll (broadcastUpdatePeer failAll
      (broadcastUpdatePeer failAll ("peerA", ⟨100, 0, true⟩)))
    let q := maintainPeer p3.2
    q.is_active = false ∧ q.failed_attempts = 2 ∧
      ¬ (q.is_active = true ↔ q.failed_attempts < 3) := by
  decide

/-- C1 amended: after every registry mutation (broadcast send failure,
heartbeat success or failure, maintenance decay) the one-sided invariant
`is_active = true → failed_attempts < 3` holds; equivalently
`failed_attempts ≥ 3 → ¬ is_active`.  The spec's biconditional fails during
maintenance decay, where an inactive peer keeps `is_active = false` until
its counter decays all the way to 0. -/
theorem C1_invariant_preserved (sendOk pingOk : String → Bool) (now : Nat)
    (p : String × PeerState) (h : peerInv p.2) :
    peerInv (broadcastUpdatePeer sendOk p).2 ∧
    peerInv (heartbeatPeer pingOk now p).2 ∧
    peerInv (maintainPeer p.2) := by
  obtain ⟨name, ls, fa, act⟩ := p
  unfold peerInv at *
  refine ⟨?_, ?_, ?_⟩ <;>
    cases act <;>
    simp_all [broadcastUpdatePeer, heartbeatPeer, maintainPeer] <;>
    split_ifs <;> simp_all <;> omega

/-- Witness for C1 amended at a concrete peer with two prior failures. -/
theorem C1_invariant_preserved_witness :
    peerInv (broadcastUpdatePeer (fun _ => false) ("a", ⟨50, 2, true⟩)).2 ∧
    peerInv (heartbeatPeer (fun _ => true) 60 ("a", ⟨50, 2, true⟩)).2 ∧
    peerInv (maintainPeer (⟨50, 2, true⟩ : PeerState)) :=
  C1_invariant_preserved (fun _ => false) (fun _ => true) 60
    ("a", ⟨50, 2, true⟩) (by decide)

/-! ## C3 — maintenance decay reactivates after exactly n cycles -/

/-- C3: an inactive peer with `failed_attempts = n` (`n ≥ 1`) is active
after `k` maintenance-decay cycles (with no intervening failures, i.e. only
`maintainPeer` applied) if and only if `n ≤ k`: it reactivates at exactly
the `n`-th cycle and not after any earlier one. -/
theorem C3_maintenance_decay_exact (p : PeerState) (n k : Nat) (hn : 1 ≤ n)
    (ha : p.is_active = false) (hf : p.failed_attempts = n) :
    ((maintainPeer^[k]) p).is_active = true ↔ n ≤ k := by
  obtain ⟨ls, fa, act⟩ := p
  cases ha
  cases hf
  by_cases hk : k < fa
  · rw [maintainPeer_iterate_lt ls fa k hk]
    simp
    omega
  · have hge : fa ≤ k := by omega
    have hsplit : k = (k - fa) + fa := by omega
    rw [hsplit, Function.iterate_add_apply,
      maintainPeer_iterate_exact ls fa hn,
      maintainPeer_iterate_zero_active]
    simp

/-- Witness for C3: a peer with counter 2 is inactive after one cycle and
active after two. -/
theorem C3_maintenance_decay_exact_witness :
    (¬ (((maintainPeer^[1]) (⟨7, 2, false⟩ : PeerState)).is_active = true)) ∧
    ((maintainPeer^[2]) (⟨7, 2, false⟩ : PeerState)).is_active = true := by
  constructor
  · intro h
    have := (C3_maintenance_decay_exact ⟨7, 2, false⟩ 2 1 (by decide) rfl rfl).mp h
    omega
  · exact (C3_maintenance_decay_exact ⟨7, 2, false⟩ 2 2 (by decide) rfl rfl).mpr
      (by decide)

/-! ## C2 — broadcast deduplication -/

/-- C2: broadcasting the same message twice contacts no peer on the second
call.  The first call records the fingerprint in `known_messages`; the
second call finds it there and returns immediately, changing nothing and
sending no frame to any peer, whatever the network oracle or clock of
either call. -/
theorem C2_broadcast_dedup_idempotent (hash : String → Nat)
    (compress : String → List Nat) (sendOk1 sendOk2 : String → Bool)
    (net : MeshNetwork) (m : String) (now1 now2 : Nat) :
    broadcast_message hash compress sendOk2
        (broadcast_message hash compress sendOk1 net m now1).net m now2 =
      ⟨(broadcast_message hash compress sendOk1 net m now1).net, []⟩ := by
  by_cases h : hash m ∈ net.known_messages
  · simp [broadcast_message, h]
  · simp [broadcast_message, h]

/-! ## C5 — the heartbeat reactivation path does not exist -/

/-- C5 counterexample: an inactive peer is skipped by the heartbeat loop
even when every PING would succeed — it is not contacted (not in the pinged
list) and stays inactive, so "one successful heartbeat moves an Inactive
peer back to Active" has no code path: reactivation is by maintenance decay
only. -/
theorem C5_heartbeat_reactivation_counterexample :
    let allOk : String → Bool := fun _ => true
    let p : String × PeerState := ("peerB", ⟨0, 3, false⟩)
    heartbeatPeer allOk 50 p = p ∧
    (heartbeatStep allOk 50 [p]).head?.map (fun q => q.2.is_active) =
      some false ∧
    heartbeatPinged [p] = [] := by
  decide

/-- C5 amended: for every ACTIVE peer, a successful heartbeat sets
`last_seen` to the current time and `failed_attempts` to 0 (the peer stays
active); inactive peers are skipped by the heartbeat loop and left
completely unchanged, so the heartbeat provides no reactivation path for
inactive peers — an inactive peer returns to active only via maintenance
decay. -/
theorem C5_heartbeat_success_resets (pingOk : String → Bool) (now : Nat)
    (p : String × PeerState) :
    (p.2.is_active = true → pingOk p.1 = true →
      heartbeatPeer pingOk now p = (p.1, ⟨now, 0, true⟩)) ∧
    (p.2.is_active = false → heartbeatPeer pingOk now p = p) := by
  obtain ⟨name, ls, fa, act⟩ := p
  constructor
  · intro hact hping
    simp only at hact
    subst hact
    simp [heartbeatPeer, hping]
  · intro hact
    simp only at hact
    subst hact
    simp [heartbeatPeer]

/-- Witness for C5 amended: a successful heartbeat on an active peer with
two failures resets it to `⟨now, 0, active⟩`. -/
theorem C5_heartbeat_success_resets_witness :
    heartbeatPeer (fun _ => true) 77 ("a", ⟨3, 2, true⟩) = ("a", ⟨77, 0, true⟩) :=
  (C5_heartbeat_success_resets (fun _ => true) 77 ("a", ⟨3, 2, true⟩)).1 rfl rfl

/-! ## C10 — the heartbeat loop never contacts an inactive peer -/

/-- C10: on every heartbeat iteration, a peer with `is_active = false` is
skipped before any connection is opened: it is not in the pinged list (no
PING frame sent to its address, given registry keys are distinct, as they
are for a Python dict), and its registry entry — in particular `last_seen`
and `failed_attempts` — survives the iteration unchanged. -/
theorem C10_heartbeat_skips_inactive (pingOk : String → Bool) (now : Nat)
    (peers : List (String × PeerState)) (p : String × PeerState)
    (hmem : p ∈ peers) (ha : p.2.is_active = false)
    (hkeys : (peers.map Prod.fst).Nodup) :
    heartbeatPeer pingOk now p = p ∧
    p ∈ heartbeatStep pingOk now peers ∧
    p.1 ∉ heartbeatPinged peers := by
  have hfix : heartbeatPeer pingOk now p = p := by
    simp [heartbeatPeer, ha]
  refine ⟨hfix, ?_, ?_⟩
  · unfold heartbeatStep
    exact hfix ▸ List.mem_map_of_mem (heartbeatPeer pingOk now) hmem
  · intro hin
    unfold heartbeatPinged at hin
    obtain ⟨q, hq, hq1⟩ := List.mem_map.mp hin
    have hqmem : q ∈ peers := (List.mem_filter.mp hq).1
    have hqact : q.2.is_active = true := by
      simpa using (List.mem_filter.mp hq).2
    have : q = p :=
      List.inj_on_of_nodup_map hkeys hqmem hmem hq1
    rw [this] at hqact
    rw [ha] at hqact
    exact Bool.false_ne_true hqact

/-- Witness for C10 with a two-peer registry, one active and one inactive. -/
theorem C10_heartbeat_skips_inactive_witness :
    heartbeatPeer (fun _ => true) 9 ("b", ⟨0, 3, false⟩) = ("b", ⟨0, 3, false⟩) ∧
    ("b", (⟨0, 3, false⟩ : PeerState)) ∈
      heartbeatStep (fun _ => true) 9
        [("a", ⟨0, 0, true⟩), ("b", ⟨0, 3, false⟩)] ∧
    "b" ∉ heartbeatPinged [("a", ⟨0, 0, true⟩), ("b", ⟨0, 3, false⟩)] :=
  C10_heartbeat_skips_inactive (fun _ => true) 9
    [("a", ⟨0, 0, true⟩), ("b", ⟨0, 3, false⟩)] ("b", ⟨0, 3, false⟩)
    (by decide) rfl (by decide)

/-! ## C4 — buffered-message retry cap and retention window -/

/-- A delivery attempt is only ever made for an entry whose counter is
still below 5. -/
lemma bufferHandleMsg_attempted_lt (d : String → Bool) (now : Nat)
    (m : BufferedMessage) (h : (bufferHandleMsg d now m).2 = true) :
    m.attempts < 5 := by
  unfold bufferHandleMsg at h
  split_ifs at h <;> simp_all

/-- C4: (i) across ANY schedule of buffer-loop iterations, every delivery
attempt is made for an entry with `attempts < 5` — so once a message's
counter reaches 5 it is never retried again; (ii) an entry with
`attempts ≥ 5` is removed exactly when its age exceeds the 3600-second
retention window, and is otherwise kept byte-for-byte unchanged (with no
attempt made); (iii) an entry with `attempts < 5` is removed in an
iteration if and only if its delivery succeeds. -/
theorem C4_buffer_retry_cap_and_retention
    (rounds : List ((String → Bool) × Nat)) (buf : List BufferedMessage)
    (d : String → Bool) (now : Nat) (msg : BufferedMessage) :
    (∀ m ∈ (bufferIters rounds buf).2, m.attempts < 5) ∧
    (5 ≤ msg.attempts →
      (now - msg.timestamp > 3600 → bufferHandleMsg d now msg = (none, false)) ∧
      (¬ now - msg.timestamp > 3600 →
        bufferHandleMsg d now msg = (some msg, false))) ∧
    (msg.attempts < 5 →
      ((bufferHandleMsg d now msg).1 = none ↔ d msg.peer = true)) := by
  refine ⟨?_, ?_, ?_⟩
  · induction rounds generalizing buf with
    | nil => intro m hm; simp [bufferIters] at hm
    | cons r rs ih =>
      intro m hm
      simp only [bufferIters, List.mem_append] at hm
      rcases hm with hm | hm
      · have hm2 : m ∈ buf ∧ (bufferHandleMsg r.1 r.2 m).2 = true := by
          simpa [bufferStep, List.mem_filter] using hm
        exact bufferHandleMsg_attempted_lt r.1 r.2 m hm2.2
      · exact ih _ m hm
  · intro h5
    have hlt : ¬ msg.attempts < 5 := by omega
    constructor
    · intro hage
      simp [bufferHandleMsg, hlt, hage]
    · intro hage
      simp [bufferHandleMsg, hlt, hage]
  · intro hlt
    by_cases hd : d msg.peer = true
    · simp [bufferHandleMsg, hlt, hd]
    · simp [bufferHandleMsg, hlt, hd]

/-- Witness for C4: one round over a buffer holding an exhausted entry
(5 attempts, stale) and a fresh one; the exhausted entry is purged without
any retry, the fresh one is removed on successful delivery. -/
theorem C4_buffer_retry_cap_and_retention_witness :
    (∀ m ∈ (bufferIters [(fun _ => true, 5000)]
        [⟨"a", [1], 5, 0⟩, ⟨"b", [2], 0, 4900⟩]).2, m.attempts < 5) ∧
    (5 ≤ (5 : Nat) →
      (5000 - (0 : Nat) > 3600 →
        bufferHandleMsg (fun _ => true) 5000 ⟨"a", [1], 5, 0⟩ = (none, false)) ∧
      (¬ 5000 - (0 : Nat) > 3600 →
        bufferHandleMsg (fun _ => true) 5000 ⟨"a", [1], 5, 0⟩ =
          (some ⟨"a", [1], 5, 0⟩, false))) ∧
    ((5 : Nat) < 5 →
      ((bufferHandleMsg (fun _ => true) 5000 ⟨"a", [1], 5, 0⟩).1 = none ↔
        (fun _ => true) "a" = true)) :=
  C4_buffer_retry_cap_and_retention [(fun _ => true, 5000)]
    [⟨"a", [1], 5, 0⟩, ⟨"b", [2], 0, 4900⟩] (fun _ => true) 5000
    ⟨"a", [1], 5, 0⟩

/-! ## C6 — port negotiation and exhaustion -/

/-- Membership in the scanned candidate list is exactly the range
`base+1 .. base+n`. -/
lemma mem_candidatePorts (base n p : Nat) :
    p ∈ candidatePorts base n ↔ base + 1 ≤ p ∧ p ≤ base + n := by
  simp only [candidatePorts, List.mem_map, List.mem_range]
  constructor
  · rintro ⟨i, hi, rfl⟩
    omega
  · rintro ⟨h1, h2⟩
    exact ⟨p - base - 1, by omega, by omega⟩

/-- C6: if binding-and-verifying fails on every candidate port
`base+1 .. base+n`, `start` fails with the exhaustion error that names the
scanned range; and whenever `start` commits a port, that port lies in the
scanned range, it is one on which bind-and-verify succeeded, and every
earlier candidate failed (so exactly this one port is committed). -/
theorem C6_port_negotiation (ok : Nat → Bool) (base n : Nat) :
    ((∀ p ∈ candidatePorts base n, ok p = false) →
      startPortLoop ok base n = .error (portExhaustionMessage base n)) ∧
    (∀ p, startPortLoop ok base n = .ok p →
      base + 1 ≤ p ∧ p ≤ base + n ∧ ok p = true ∧
        ∀ q ∈ candidatePorts base n, q < p → ok q = false) := by
  constructor
  · intro hall
    unfold startPortLoop
    rw [List.find?_eq_none.mpr (by intro x hx; simp [hall x hx])]
  · intro p hp
    unfold startPortLoop at hp
    cases hfind : (candidatePorts base n).find? ok with
    | none => rw [hfind] at hp; exact absurd hp (by simp)
    | some q =>
      rw [hfind] at hp
      have hq : q = p := by simpa using hp
      subst hq
      have hokq : ok q = true := List.find?_some hfind
      have hmem : q ∈ candidatePorts base n := List.mem_of_find?_eq_some hfind
      have hbounds := (mem_candidatePorts base n q).mp hmem
      refine ⟨hbounds.1, hbounds.2, hokq, ?_⟩
      intro r hr hlt
      by_contra hok
      have hokr : ok r = true := by
        cases hor : ok r with
        | true => rfl
        | false => exact absurd hor hok
      -- `find?` returns the first satisfying element of the list, and the
      -- candidate list is strictly increasing, so a satisfying earlier
      -- (smaller) candidate contradicts `find? = some q`.
      have : ∀ l : List Nat, l.find? ok = some q → l.Sorted (· < ·) →
          r ∈ l → r < q → False := by
        intro l
        induction l with
        | nil => intro h _ hr _; simp at hr
        | cons a as ih =>
          intro hfind hsort hrmem hrlt
          rcases List.mem_cons.mp hrmem with rfl | hras
          · rw [List.find?_cons_of_pos _ hokr] at hfind
            have : r = q := by simpa using hfind
            omega
          · cases hoka : ok a with
            | true =>
              rw [List.find?_cons_of_pos _ hoka] at hfind
              have haq : a = q := by simpa using hfind
              have : a < r := (List.sorted_cons.mp hsort).1 r hras
              omega
            | false =>
              rw [List.find?_cons_of_neg _ (by simp [hoka])] at hfind
              exact ih hfind (List.sorted_cons.mp hsort).2 hras hrlt
      refine this (candidatePorts base n) hfind ?_ hr hlt
      unfold candidatePorts
      exact List.Pairwise.map _ (fun a b hab => by omega)
        (List.sorted_lt_range n)

/-- Witness for C6: with ports 11 and 12 occupied and 13 free, negotiation
over base 10 with 5 retries commits exactly port 13; with every port
occupied it fails with the range-naming error. -/
theorem C6_port_negotiation_witness :
    startPortLoop (fun _ => false) 10 3 =
      .error (portExhaustionMessage 10 3) ∧
    (10 + 1 ≤ 13 ∧ 13 ≤ 10 + 5 ∧ (fun p => decide (13 ≤ p)) 13 = true ∧
      ∀ q ∈ candidatePorts 10 5, q < 13 → (fun p => decide (13 ≤ p)) q = false) :=
  ⟨(C6_port_negotiation (fun _ => false) 10 3).1 (fun _ _ => rfl),
   (C6_port_negotiation (fun p => decide (13 ≤ p)) 10 5).2 13 rfl⟩

/-! ## C8 — compression round trip and best-effort fallback -/

/-- C8: on the normal path (the zstd compressor succeeds on the encoded
message, the decompressor inverts it, and strict decoding recovers the
text) decompressing a compressed message yields the original string
exactly; and on a corrupted or non-compressed payload — one the
decompressor rejects — `_decompress_message` returns the best-effort
`errors='replace'` decoding of the raw bytes instead of raising (the
embedded function is total: it returns a string on every input). -/
theorem C8_compress_roundtrip (c : Codec) (m : String) (out d : List Nat)
    (h1 : c.zcompress (c.encode m) = some out)
    (h2 : c.zdecompress out = some (c.encode m))
    (h3 : c.decode (c.encode m) = some m)
    (h4 : c.zdecompress d = none) :
    decompress_message c (compress_message c m) = m ∧
    decompress_message c d = c.decodeReplace d := by
  constructor
  · have hc : compress_message c m = out := by
      unfold compress_message
      rw [h1]
    rw [hc]
    unfold decompress_message
    rw [h2]
    simp [h3]
  · unfold decompress_message
    rw [h4]

/-- Witness for C8 with the concrete marker codec on the message "hi" and
the corrupted payload `[7]` (no marker byte, so decompression fails). -/
theorem C8_compress_roundtrip_witness :
    decompress_message unitCodec (compress_message unitCodec "hi") = "hi" ∧
    decompress_message unitCodec [7] = unitCodec.decodeReplace [7] :=
  C8_compress_roundtrip unitCodec "hi" (42 :: unitCodec.encode "hi") [7]
    rfl rfl (by simp [unitCodec]) rfl

/-! ## C9 — shutdown error handling -/

/-- A network state whose HTTP runner was successfully set up. -/
def netWithRunner : MeshNetwork :=
  { base_port := 12345, max_retry_ports := 5, is_running := true,
    http_runner := true }

/-- C9 counterexample: `MeshNetwork.stop()` wraps neither
`_http_runner.cleanup()` nor `dht.stop()` in try/except, so when the HTTP
runner cleanup raises, `stop()` raises — the claim "stop() never raises:
every resource-cleanup error during shutdown is swallowed" fails at this
input (and likewise when `dht.stop()` raises). -/
theorem C9_stop_raises_counterexample :
    MeshNetwork.stop false true netWithRunner =
      .error "http runner cleanup raised" ∧
    MeshNetwork.stop true false netWithRunner = .error "dht stop raised" := by
  constructor <;> rfl

/-- C9 amended: the swallowing happens one level up — `MeshChat.cleanup()`
gathers the stop coroutines with `return_exceptions=True`, so teardown
always completes (the running flag ends false) whatever combination of
tor-stop / HTTP-cleanup / DHT-stop failures occurs; `MeshNetwork.stop()`
itself propagates cleanup errors, but it does tolerate a partially failed
`start()`: when the HTTP runner was never set up it skips the runner
cleanup (its outcome is irrelevant), and when the cleanup calls succeed
`stop()` returns normally with the network stopped. -/
theorem C9_cleanup_swallows (torStopOk httpCleanupOk dhtStopOk : Bool)
    (net : MeshNetwork) :
    (cleanup torStopOk httpCleanupOk dhtStopOk net).is_running = false ∧
    (net.http_runner = false →
      net.stop httpCleanupOk dhtStopOk = net.stop true dhtStopOk) ∧
    (dhtStopOk = true → (net.http_runner = false ∨ httpCleanupOk = true) →
      ∃ n, net.stop httpCleanupOk dhtStopOk = .ok n ∧
        n.is_running = false) := by
  refine ⟨?_, ?_, ?_⟩
  · unfold cleanup MeshNetwork.stop
    by_cases h1 : net.http_runner = true ∧ httpCleanupOk = false
    · rw [if_pos h1]
    · rw [if_neg h1]
      by_cases h2 : dhtStopOk = false
      · rw [if_pos h2]
      · rw [if_neg h2]
  · intro hr
    unfold MeshNetwork.stop
    simp [hr]
  · intro hd hh
    unfold MeshNetwork.stop
    rcases hh with hr | hok
    · simp [hr, hd]
    · simp [hok, hd]

/-- Witness for C9 amended: every cleanup call failing still completes
teardown; a network without a runner ignores the HTTP-cleanup outcome; a
fully successful stop returns the stopped state. -/
theorem C9_cleanup_swallows_witness :
    (cleanup false false false netWithRunner).is_running = false ∧
    ∃ n, netWithRunner.stop true true = .ok n ∧ n.is_running = false :=
  ⟨(C9_cleanup_swallows false false false netWithRunner).1,
   (C9_cleanup_swallows false true true netWithRunner).2.2 rfl (Or.inr rfl)⟩

/-! ## C7 — broadcast failure handling -/

/-- With distinct registry keys (a Python dict), an inactive peer's key is
not among the keys of the active-filtered registry. -/
lemma notMem_active_keys (peers : List (String × PeerState))
    (p : String × PeerState) (hmem : p ∈ peers) (ha : p.2.is_active = false)
    (hkeys : (peers.map Prod.fst).Nodup) :
    p.1 ∉ (peers.filter (fun q => q.2.is_active)).map (·.1) := by
  intro hin
  obtain ⟨q, hq, hq1⟩ := List.mem_map.mp hin
  have hqmem : q ∈ peers := (List.mem_filter.mp hq).1
  have hqact : q.2.is_active = true := by
    simpa using (List.mem_filter.mp hq).2
  have : q = p := List.inj_on_of_nodup_map hkeys hqmem hmem hq1
  rw [this, ha] at hqact
  exact Bool.false_ne_true hqact

/-- C7: in a broadcast of a fresh message (fingerprint not yet known),
(i) every inactive peer is skipped entirely: its per-peer update is the
identity, its registry entry survives unchanged, and — registry keys being
distinct — no frame-send is attempted to it; (ii) every active peer is
attempted, regardless of failures at other peers (no per-peer failure
aborts the loop, which is total); (iii) every send failure to an active
peer increments exactly that peer's `failed_attempts` and enqueues a
buffered entry carrying the compressed payload with `attempts = 0`;
(iv) conversely every buffer entry after the call is either pre-existing or
such an `attempts = 0` entry for an active peer whose send failed. -/
theorem C7_broadcast_failure_handling (hash : String → Nat)
    (compress : String → List Nat) (sendOk : String → Bool)
    (net : MeshNetwork) (m : String) (now : Nat)
    (hnew : hash m ∉ net.known_messages)
    (hkeys : (net.peers.map Prod.fst).Nodup) :
    (∀ p ∈ net.peers, p.2.is_active = false →
      broadcastUpdatePeer sendOk p = p ∧
      p ∈ (broadcast_message hash compress sendOk net m now).net.peers ∧
      p.1 ∉ (broadcast_message hash compress sendOk net m now).contacted) ∧
    (∀ p ∈ net.peers, p.2.is_active = true →
      p.1 ∈ (broadcast_message hash compress sendOk net m now).contacted) ∧
    (∀ p ∈ net.peers, p.2.is_active = true → sendOk p.1 = false →
      (broadcastUpdatePeer sendOk p).2.failed_attempts =
        p.2.failed_attempts + 1 ∧
      broadcastUpdatePeer sendOk p ∈
        (broadcast_message hash compress sendOk net m now).net.peers ∧
      BufferedMessage.mk p.1 (compress m) 0 now ∈
        (broadcast_message hash compress sendOk net m now).net.message_buffer) ∧
    (∀ e ∈ (broadcast_message hash compress sendOk net m now).net.message_buffer,
      e ∈ net.message_buffer ∨
      (e.attempts = 0 ∧ e.message = compress m ∧
        ∃ p ∈ net.peers, p.2.is_active = true ∧ sendOk p.1 = false ∧
          e.peer = p.1)) := by
  have hres : broadcast_message hash compress sendOk net m now =
      ⟨{ net with
          known_messages := hash m :: net.known_messages,
          peers := net.peers.map (broadcastUpdatePeer sendOk),
          message_buffer := net.message_buffer ++
            (net.peers.filter (fun p => p.2.is_active && !(sendOk p.1))).map
              (fun p => BufferedMessage.mk p.1 (compress m) 0 now) },
        (net.peers.filter (fun p => p.2.is_active)).map (·.1)⟩ := by
    unfold broadcast_message
    rw [if_neg hnew]
  rw [hres]
  refine ⟨?_, ?_, ?_, ?_⟩
  · intro p hp ha
    have hfix : broadcastUpdatePeer sendOk p = p := by
      simp [broadcastUpdatePeer, ha]
    refine ⟨hfix, ?_, ?_⟩
    · exact hfix ▸ List.mem_map_of_mem (broadcastUpdatePeer sendOk) hp
    · exact notMem_active_keys net.peers p hp ha hkeys
  · intro p hp ha
    exact List.mem_map_of_mem _ (List.mem_filter.mpr ⟨hp, by simp [ha]⟩)
  · intro p hp ha hs
    refine ⟨by simp [broadcastUpdatePeer, ha, hs], ?_, ?_⟩
    · exact List.mem_map_of_mem (broadcastUpdatePeer sendOk) hp
    · refine List.mem_append.mpr (Or.inr ?_)
      exact List.mem_map.mpr
        ⟨p, List.mem_filter.mpr ⟨hp, by simp [ha, hs]⟩, rfl⟩
  · intro e he
    rcases List.mem_append.mp he with hold | hnewe
    · exact Or.inl hold
    · obtain ⟨p, hpfil, rfl⟩ := List.mem_map.mp hnewe
      have hp : p ∈ net.peers := (List.mem_filter.mp hpfil).1
      have hcond : p.2.is_active = true ∧ sendOk p.1 = false := by
        simpa using (List.mem_filter.mp hpfil).2
      exact Or.inr ⟨rfl, rfl, p, hp, hcond.1, hcond.2, rfl⟩

/-- Witness for C7 on a concrete three-peer registry: peer "a" active and
reachable, peer "b" active but failing, peer "c" inactive; the fresh
message has fingerprint 7 over an empty known-message set. -/
theorem C7_broadcast_failure_handling_witness :
    let peers : List (String × PeerState) :=
      [("a", ⟨0, 0, true⟩), ("b", ⟨0, 1, true⟩), ("c", ⟨0, 3, false⟩)]
    let net : MeshNetwork :=
      { base_port := 10, max_retry_ports := 5, peers := peers }
    let hash : String → Nat := fun _ => 7
    let compress : String → List Nat := fun _ => [9, 9]
    let sendOk : String → Bool := fun s => decide (s = "a")
    (∀ p ∈ net.peers, p.2.is_active = false →
      broadcastUpdatePeer sendOk p = p ∧
      p ∈ (broadcast_message hash compress sendOk net "m" 4).net.peers ∧
      p.1 ∉ (broadcast_message hash compress sendOk net "m" 4).contacted) ∧
    (∀ p ∈ net.peers, p.2.is_active = true →
      p.1 ∈ (broadcast_message hash compress sendOk net "m" 4).contacted) ∧
    (∀ p ∈ net.peers, p.2.is_active = true → sendOk p.1 = false →
      (broadcastUpdatePeer sendOk p).2.failed_attempts =
        p.2.failed_attempts + 1 ∧
      broadcastUpdatePeer sendOk p ∈
        (broadcast_message hash compress sendOk net "m" 4).net.peers ∧
      BufferedMessage.mk p.1 (compress "m") 0 4 ∈
        (broadcast_message hash compress sendOk net "m" 4).net.message_buffer) ∧
    (∀ e ∈ (broadcast_message hash compress sendOk net "m" 4).net.message_buffer,
      e ∈ net.message_buffer ∨
      (e.attempts = 0 ∧ e.message = compress "m" ∧
        ∃ p ∈ net.peers, p.2.is_active = true ∧ sendOk p.1 = false ∧
          e.peer = p.1)) := by
  exact C7_broadcast_failure_handling (fun _ => 7) (fun _ => [9, 9])
    (fun s => decide (s = "a"))
    { base_port := 10, max_retry_ports := 5,
      peers := [("a", ⟨0, 0, true⟩), ("b", ⟨0, 1, true⟩), ("c", ⟨0, 3, false⟩)] }
    "m" 4 (by decide) (by decide)

end SecureWhisper
